import Mathlib

/-!
Verification of the session/connection manager and subscription multiplexer
of the `trade-republic-api` TypeScript client (`TradeRepublicApi` in the
current `api.ts`).  The class's mutable fields are embedded as the record
`ApiState`; its methods become pure state-transition functions.  External
effects (the network socket, the file system, JSON parsing of the persisted
session record, timers of the JavaScript event loop, user callbacks) are
represented by explicit oracle parameters or by small inductive types, so
that every definition is executable and every claim can be evaluated on
concrete inputs.
-/

namespace TRApi

/-- The `{` character, written via its code point so that it never occurs
literally in the file's strings. -/
def lbrace : Char := Char.ofNat 123

/-- The `}` character. -/
def rbrace : Char := Char.ofNat 125

/-- JavaScript `String.prototype.trim`, modelled on character lists:
whitespace is stripped from both ends. -/
def trimChars (cs : List Char) : List Char :=
  ((cs.dropWhile Char.isWhitespace).reverse.dropWhile Char.isWhitespace).reverse

/-- `String.prototype.startsWith`. -/
def strStartsWith (s pre : String) : Bool :=
  pre.data.isPrefixOf s.data

/-- JavaScript `String.prototype.includes` (substring test), used by the code
for `data.includes("AUTHENTICATION_ERROR")` and the failure-marker checks. -/
def strIncludes (s pat : String) : Bool :=
  (s.splitOn pat).length > 1

/-- The first maximal run of decimal digits in a character list, as matched by
the regular expression `/\d+/` in `idPart.match(/\d+/)`: scanning from the
left, the match starts at the first digit and extends over the maximal digit
run from there.  `none` when the list has no digit at all. -/
def firstDigitRun (cs : List Char) : Option (List Char) :=
  match cs.dropWhile (fun c => !c.isDigit) with
  | [] => none
  | c :: rest => some ((c :: rest).takeWhile Char.isDigit)

/-- JavaScript `Number(...)` on a non-empty string of decimal digits. -/
def digitsToNat (cs : List Char) : Nat :=
  cs.foldl (fun n c => 10 * n + (c.toNat - 48)) 0

/-- Result object of `_parseWebSocketPayload` (the source returns an object in
both branches, with `null` fields when there is no brace). -/
structure ParsedPayload where
  subscriptionId : Option Nat
  jsonData : Option String
deriving Repr, DecidableEq

/-- `_parseWebSocketPayload(rawMessage)`:
`startIndex = rawMessage.indexOf("{")`; if found, `idPart` is the text before
the brace, trimmed, the id is `idPart.match(/\d+/)` converted by `Number`,
and `jsonData` is `rawMessage.substring(startIndex).trim()`; otherwise both
fields are `null`. -/
def parseWebSocketPayload (raw : String) : ParsedPayload :=
  let pre := raw.data.takeWhile (fun c => c ≠ lbrace)
  match raw.data.dropWhile (fun c => c ≠ lbrace) with
  | [] => ⟨none, none⟩
  | c :: rest =>
    let idPart := trimChars pre
    let idMatch := firstDigitRun idPart
    ⟨idMatch.map digitsToNat, some (String.mk (trimChars (c :: rest)))⟩

/-- The id that `_handleWebSocketMessage` routes a raw frame to: frames whose
text starts with `echo` or `connected` return early and route nothing;
otherwise the parsed `subscriptionId` (possibly `null`) decides routing. -/
def routedSubscriptionId (raw : String) : Option Nat :=
  if strStartsWith raw ("echo") then none
  else if strStartsWith raw ("connected") then none
  else (parseWebSocketPayload raw).subscriptionId

/-- The id-extraction rule exactly as the specification words it: "the numeric
id is the longest leading run of digits found before the first `{`
character" — the digit run at the very start of the (trimmed) text that
precedes the first brace. -/
def specLeadingDigitsId (raw : String) : Option Nat :=
  let pre := (raw.data).takeWhile (fun c => c ≠ lbrace)
  match (trimChars pre).takeWhile Char.isDigit with
  | [] => none
  | c :: rest => some (digitsToNat (c :: rest))

/-- The body rule exactly as the specification words it: "the JSON body is
everything from that `{` to end of frame" (no trimming). -/
def specBodyToEnd (raw : String) : Option String :=
  match (raw.data).dropWhile (fun c => c ≠ lbrace) with
  | [] => none
  | c :: rest => some (String.mk (c :: rest))

/-- A message from the external catalog (`createMessage` in `messages.ts`):
a topic name plus an opaque JSON-serialisable parameter object, here kept as
an uninterpreted string. -/
structure Msg where
  type : String
  params : String
deriving Repr, DecidableEq

/-- `createMessage(type)` with no extra parameters. -/
def createMessage (t : String) : Msg := ⟨t, ""⟩

/-- One entry of the `subscriptions` array (`InternalSubscription`).  The
callback function itself is not stored; callback invocations are recorded as
`DeliveryEvent`s and callback behaviour is supplied by oracles.  Note the
entry does NOT store any session token: the wire payload is rebuilt from the
current `trSessionToken` at each send. -/
structure Subscription where
  id : Nat
  topic : String
  payload : Msg
  isOneTime : Bool
deriving Repr, DecidableEq

/-- The parse-relevant shape of the bytes in the persisted cookie file, as
seen by `_loadSessionFromFile`: the file may be empty after `trim()`, may
fail `JSON.parse`, or may parse to an object whose `trSessionToken` field is
a string or missing (`none`) and whose `rawCookies` field is an array of
strings or missing/not-an-array (`none`). -/
inductive FileContent where
  | empty
  | malformedJson
  | record (trSessionToken : Option String) (rawCookies : Option (List String))
      (trRefreshToken : Option String)
deriving Repr, DecidableEq

/-- The state of the cookie file at `cookieFilePath`: absent (`ENOENT` on
`fs.access`), inaccessible (other access error, e.g. permissions), or
present with some content. -/
inductive PersistedFile where
  | absent
  | inaccessible
  | stored (content : FileContent)
deriving Repr, DecidableEq

/-- `SavedCookieData` as returned by a successful `_loadSessionFromFile`. -/
structure SavedCookieData where
  trSessionToken : String
  trRefreshToken : Option String
  rawCookies : List String
deriving Repr, DecidableEq

/-- JavaScript truthiness of an optional string field (missing and the empty
string are both falsy). -/
def tokenTruthy : Option String → Bool
  | none => false
  | some s => !s.isEmpty

/-- The mutable fields of the `TradeRepublicApi` class, together with the
bookkeeping the event-loop model needs: `pendingReconnects` counts reconnect
callbacks scheduled by `setTimeout` in `_scheduleReconnect` that have not yet
fired (the source stores no handle for them). -/
structure ApiState where
  wsOpen : Bool
  trSessionToken : Option String
  trRefreshToken : Option String
  rawCookies : List String
  processId : Option String
  subscriptions : List Subscription
  nextSubscriptionId : Nat
  echoRunning : Bool
  reconnectAttempts : Nat
  pendingSubs : List Nat
  sessionFile : PersistedFile
  pendingReconnects : Nat
deriving Repr, DecidableEq

/-- The state of a freshly constructed client (constructor defaults), over a
given initial state of the cookie file. -/
def initialState (file : PersistedFile) : ApiState :=
  { wsOpen := false, trSessionToken := none, trRefreshToken := none,
    rawCookies := [], processId := none, subscriptions := [],
    nextSubscriptionId := 1, echoRunning := false, reconnectAttempts := 0,
    pendingSubs := [], sessionFile := file, pendingReconnects := 0 }

/-- `_subscribeInternal(message, callback, isOneTime)`: without a session
token it logs and returns the sentinel `-1` (no throw, no state change);
otherwise it assigns `nextSubscriptionId++`, pushes the registry entry, and
either sends immediately (socket open; send failures are caught and logged)
or queues the send closure in `pendingSubs`. -/
def subscribeInternal (st : ApiState) (message : Msg) (isOneTime : Bool) :
    ApiState × Int :=
  match st.trSessionToken with
  | none => (st, -1)
  | some _ =>
    let subId := st.nextSubscriptionId
    let st1 := { st with
      nextSubscriptionId := subId + 1,
      subscriptions := st.subscriptions ++
        [⟨subId, message.type, message, isOneTime⟩] }
    if st1.wsOpen then (st1, (subId : Int))
    else ({ st1 with pendingSubs := st1.pendingSubs ++ [subId] }, (subId : Int))

/-- `subscribe(message, callback)`. -/
def subscribe (st : ApiState) (message : Msg) : ApiState × Int :=
  subscribeInternal st message false

/-- `subscribeOnce(message, callback)`. -/
def subscribeOnce (st : ApiState) (message : Msg) : ApiState × Int :=
  subscribeInternal st message true

/-- `unsubscribe(id)`: filters the registry by id; if the socket is open a
best-effort `unsub <id>` frame is sent (failure logged only — no state
effect). -/
def unsubscribe (st : ApiState) (id : Int) : ApiState :=
  { st with subscriptions :=
      st.subscriptions.filter (fun s => ((s.id : Int) ≠ id : Bool)) }

/-- An outbound `sub <id> <json>` wire frame, where the JSON is
`JSON.stringify({token: this.trSessionToken, ...payload})`: the token field
is read from the CURRENT state at the moment the frame is built. -/
structure SubFrame where
  id : Nat
  token : Option String
  payload : Msg
deriving Repr, DecidableEq

/-- `_resubscribeAll()`: returns the list of send attempts.  If the socket is
not open nothing happens; otherwise the loop body runs once per registry
entry in order, inside its own `try/catch`, so a failed send (the boolean
supplied by the `sendOk` oracle) is logged and the loop continues with the
remaining entries.  Each frame is rebuilt with the current
`trSessionToken`. -/
def resubscribeAll (st : ApiState) (sendOk : Nat → Bool) :
    List (SubFrame × Bool) :=
  if !st.wsOpen then []
  else st.subscriptions.map
    (fun s => (⟨s.id, st.trSessionToken, s.payload⟩, sendOk s.id))

/-- The `onOpen` handler inside `_setupWebSocket` (after the `connect`
handshake frame): starts the echo keep-alive, resets `reconnectAttempts` to
0, flushes `pendingSubs` (each queued closure re-reads the current token;
its frames are not returned here), then runs `_resubscribeAll`; returns the
new state and the resubscription send attempts. -/
def onOpen (st : ApiState) (sendOk : Nat → Bool) :
    ApiState × List (SubFrame × Bool) :=
  let st1 := { st with
    wsOpen := true, echoRunning := true,
    reconnectAttempts := 0, pendingSubs := [] }
  (st1, resubscribeAll st1 sendOk)

/-- `_scheduleReconnect()`: computes
`delay = Math.min(30_000, 1_000 * 2 ** this.reconnectAttempts++)` (the
post-increment uses the old counter value) and calls `setTimeout` with that
delay.  The timer handle is NOT stored anywhere, which the model records by
incrementing `pendingReconnects`; no code path ever decrements it except the
timer firing itself. -/
def scheduleReconnect (st : ApiState) : ApiState × Nat :=
  let delay := min 30000 (1000 * 2 ^ st.reconnectAttempts)
  ({ st with
      reconnectAttempts := st.reconnectAttempts + 1,
      pendingReconnects := st.pendingReconnects + 1 }, delay)

/-- The `onClose` handler for an unexpected close: logs, clears the echo
interval, and schedules a reconnect. -/
def onUnexpectedClose (st : ApiState) : ApiState × Nat :=
  scheduleReconnect { st with wsOpen := false, echoRunning := false }

/-- `_clearLocalRuntimeState()`: resets tokens, cookies, `processId`, the
registry, `nextSubscriptionId`, `pendingSubs`, and closes the socket via
`_closeWebSocket` (which clears the echo interval and removes all listeners
before closing).  Nothing in it touches the reconnect timers scheduled by
`_scheduleReconnect` — the source has no handle to them. -/
def clearLocalRuntimeState (st : ApiState) : ApiState :=
  { st with
    trSessionToken := none, trRefreshToken := none, rawCookies := [],
    processId := none, subscriptions := [], nextSubscriptionId := 1,
    pendingSubs := [], wsOpen := false, echoRunning := false }

/-- `_clearSessionAndConnection(deletePersistedSessionFile)`. -/
def clearSessionAndConnection (st : ApiState) (deleteFile : Bool) : ApiState :=
  let st1 := clearLocalRuntimeState st
  if deleteFile then { st1 with sessionFile := PersistedFile.absent } else st1

/-- `logout()`: clears local runtime state and deletes the saved session
file. -/
def logout (st : ApiState) : ApiState :=
  clearSessionAndConnection st true

/-- One reconnect timer firing: a no-op if no timer is pending; otherwise the
callback runs `_setupWebSocket()` with errors swallowed — a no-op when the
socket is already open, a successful open otherwise when the transport
cooperates (`connectOk`), and another `_scheduleReconnect` via the `onError`
handler when it does not. -/
def reconnectTimerFires (st : ApiState) (connectOk : Bool) : ApiState :=
  if st.pendingReconnects = 0 then st
  else
    let st1 := { st with pendingReconnects := st.pendingReconnects - 1 }
    if st1.wsOpen then st1
    else if connectOk then (onOpen st1 (fun _ => true)).1
    else (scheduleReconnect st1).1

/-- A recorded invocation of a registry entry's callback by
`_handleWebSocketMessage`.  `callbackThrew` is true when the callback raised;
the handler catches and logs such exceptions, so the event is recorded and
processing continues either way. -/
structure DeliveryEvent where
  subId : Nat
  data : Option String
  callbackThrew : Bool
deriving Repr, DecidableEq

/-- The delivery step of `_handleWebSocketMessage`:
`findIndex(sub => sub.id === subscriptionId)` selects the FIRST entry with a
matching id; its callback is invoked inside `try/catch`; afterwards, if the
entry `isOneTime`, `splice(subIndex, 1)` removes exactly that entry.  The
`cbThrows` oracle decides whether the callback raises. -/
def deliverToSubs (cbThrows : Nat → Option String → Bool) (sid : Nat)
    (data : Option String) :
    List Subscription → List Subscription × List DeliveryEvent
  | [] => ([], [])
  | s :: rest =>
    if s.id = sid then
      let ev : DeliveryEvent := ⟨sid, data, cbThrows sid data⟩
      (if s.isOneTime then rest else s :: rest, [ev])
    else
      let r := deliverToSubs cbThrows sid data rest
      (s :: r.1, r.2)

/-- `_handleWebSocketMessage(rawMessage)`: early return on `echo` and
`connected` control frames; parse; drop frames with no routed id (logging
frames that look like server failures); otherwise deliver to the registry. -/
def handleWebSocketMessage (cbThrows : Nat → Option String → Bool)
    (st : ApiState) (raw : String) : ApiState × List DeliveryEvent :=
  if strStartsWith raw ("echo") then (st, [])
  else if strStartsWith raw ("connected") then (st, [])
  else
    let parsed := parseWebSocketPayload raw
    match parsed.subscriptionId with
    | none => (st, [])
    | some sid =>
      let r := deliverToSubs cbThrows sid parsed.jsonData st.subscriptions
      ({ st with subscriptions := r.1 }, r.2)

/-- A sequence of inbound frames handled in wire order, accumulating the
delivery events. -/
def processFrames (cbThrows : Nat → Option String → Bool) (st : ApiState) :
    List String → ApiState × List DeliveryEvent
  | [] => (st, [])
  | f :: rest =>
    let r := handleWebSocketMessage cbThrows st f
    let r2 := processFrames cbThrows r.1 rest
    (r2.1, r.2 ++ r2.2)

/-- The number of delivery events addressed to a given subscription id. -/
def countId (i : Nat) (evs : List DeliveryEvent) : Nat :=
  evs.countP (fun e => e.subId = i)

/-- The result of `_loadSessionFromFile`: the value returned (a session or
`null`), the resulting state of the file, and whether
`_deleteSavedSessionFile` was invoked. -/
structure LoadResult where
  session : Option SavedCookieData
  fileAfter : PersistedFile
  deleted : Bool
deriving Repr, DecidableEq

/-- `_deleteSavedSessionFile()`: unlinks the file, tolerating `ENOENT`. -/
def deleteSavedSessionFile (_file : PersistedFile) : PersistedFile :=
  PersistedFile.absent

/-- `_loadSessionFromFile()`: `ENOENT` and other access errors return `null`
without touching the file; an empty file, a `JSON.parse` failure, and a
record without a truthy `trSessionToken` or without a `rawCookies` array are
all deleted via `_deleteSavedSessionFile` and return `null`; only a record
with a truthy token and a cookie array is returned. -/
def loadSessionFromFile (file : PersistedFile) : LoadResult :=
  match file with
  | .absent => ⟨none, .absent, false⟩
  | .inaccessible => ⟨none, .inaccessible, false⟩
  | .stored c =>
    match c with
    | .empty => ⟨none, deleteSavedSessionFile file, true⟩
    | .malformedJson => ⟨none, deleteSavedSessionFile file, true⟩
    | .record tok cookies refresh =>
      match tok, cookies with
      | some t, some cs =>
        if t.isEmpty then ⟨none, deleteSavedSessionFile file, true⟩
        else ⟨some ⟨t, refresh, cs⟩, file, false⟩
      | _, _ => ⟨none, deleteSavedSessionFile file, true⟩

/-- `_saveSessionToFile()`: writes the record only when a session token is
present and `rawCookies` is non-empty; a write failure (`writeOk = false`)
is caught and logged, leaving the file as it was. -/
def saveSessionToFile (st : ApiState) (writeOk : Bool) : ApiState :=
  match st.trSessionToken with
  | some tok =>
    if st.rawCookies.isEmpty then st
    else if writeOk then
      { st with sessionFile :=
          .stored (.record (some tok) (some st.rawCookies) st.trRefreshToken) }
    else st
  | none => st

/-- `data.includes("AUTHENTICATION_ERROR")`. -/
def containsAuthErrorMarker (data : String) : Bool :=
  strIncludes data ("AUTHENTICATION_ERROR")

/-- What the validation probe's one-shot callback observes before the 7s
timeout: nothing at all (`timeout`), a `null` data string, or a payload
string. -/
inductive ProbeOutcome where
  | timeout
  | nullData
  | payload (data : String)
deriving Repr, DecidableEq

/-- The boolean `_performSessionValidationSubscription` resolves with:
`false` on timeout, on `null` data, and on a payload containing the
authentication-error marker; `true` otherwise. -/
def sessionValidationResult (probe : ProbeOutcome) : Bool :=
  match probe with
  | .timeout => false
  | .nullData => false
  | .payload d => !containsAuthErrorMarker d

/-- `_performSessionValidationSubscription()`: registers a one-shot
subscription on the lightweight `availableCash` topic; if the callback fires
(non-timeout outcome) the one-shot entry is removed by the message handler,
on timeout it stays; the returned boolean is `sessionValidationResult`. -/
def performSessionValidationSubscription (st : ApiState) (probe : ProbeOutcome) :
    ApiState × Bool :=
  let r := subscribeInternal st (createMessage ("availableCash")) true
  let st2 := match probe with
    | .timeout => r.1
    | _ => { r.1 with subscriptions :=
        r.1.subscriptions.eraseP (fun s => ((s.id : Int) = r.2 : Bool)) }
  (st2, sessionValidationResult probe)

/-- `loadAndValidateSavedSession()`: loads the persisted record, installs its
tokens and cookies, opens the socket (`wsOk` is the outcome of
`_setupWebSocket`; on failure or a socket that is not open afterwards the
session and the file are cleared), then runs the validation probe; an
invalid probe result likewise clears session, file, and local state.  The
caller only learns the boolean. -/
def loadAndValidateSavedSession (st : ApiState) (wsOk : Bool)
    (probe : ProbeOutcome) : ApiState × Bool :=
  let r := loadSessionFromFile st.sessionFile
  let st0 := { st with sessionFile := r.fileAfter }
  match r.session with
  | none => (st0, false)
  | some saved =>
    if saved.trSessionToken.isEmpty then (st0, false)
    else
      let st1 := { st0 with
        trSessionToken := some saved.trSessionToken,
        trRefreshToken := saved.trRefreshToken,
        rawCookies := saved.rawCookies }
      if !wsOk then (clearSessionAndConnection st1 true, false)
      else
        let st2 := (onOpen st1 (fun _ => true)).1
        let r2 := performSessionValidationSubscription st2 probe
        if r2.2 then (r2.1, true)
        else (clearSessionAndConnection r2.1 true, false)

/-- The session artifacts `_verifyDevicePin` extracts from the verification
response: the raw `Set-Cookie` values and the `tr_session` / `tr_refresh`
cookie values found in them (`trSessionToken = none` models the required
`tr_session` cookie being absent, which makes `_extractCookieValue`
throw). -/
structure VerifyResult where
  rawCookies : List String
  trSessionToken : Option String
  trRefreshToken : Option String
deriving Repr, DecidableEq

/-- The external outcomes a `login()` run depends on.
`initialLogin`: `none` when the initiate request fails or throws, otherwise
the optional `processId` of its JSON body.  `pinVerify`: `none` when the
device-PIN prompt or the verification request fails, otherwise the extracted
session artifacts.  `saveOk`: whether the `fs.writeFile` in
`_saveSessionToFile` succeeds.  `restoreWsOk` / `fullWsOk`: the outcomes of
the two possible `_setupWebSocket` calls.  `probe`: the validation probe's
outcome on the restore path. -/
structure LoginOracles where
  restoreWsOk : Bool
  probe : ProbeOutcome
  initialLogin : Option (Option String)
  pinVerify : Option VerifyResult
  saveOk : Bool
  fullWsOk : Bool
deriving Repr, DecidableEq

/-- The observable result of `login()`: the final state, the returned
boolean, and whether the full handshake path was taken (as opposed to a
successful saved-session restore). -/
structure LoginResult where
  state : ApiState
  success : Bool
  usedFullFlow : Bool
deriving Repr, DecidableEq

/-- `login(getDevicePin)`: first tries `loadAndValidateSavedSession`; on
restore failure it runs the full flow — initiate (throwing without a
`processId`), device-PIN verification and cookie extraction (throwing when
`tr_session` is missing), `_saveSessionToFile` (write errors swallowed),
`_setupWebSocket`.  Any throw is caught by the surrounding `try/catch`,
which runs `_clearSessionAndConnection(false)` — clearing local state but
NOT deleting the persisted file — and returns `false`. -/
def login (st : ApiState) (o : LoginOracles) : LoginResult :=
  let r := loadAndValidateSavedSession st o.restoreWsOk o.probe
  if r.2 then ⟨r.1, true, false⟩
  else
    let st1 := r.1
    match o.initialLogin with
    | none => ⟨clearSessionAndConnection st1 false, false, true⟩
    | some pid? =>
      match pid? with
      | none => ⟨clearSessionAndConnection st1 false, false, true⟩
      | some pid =>
        if pid.isEmpty then ⟨clearSessionAndConnection st1 false, false, true⟩
        else
        let st2 := { st1 with processId := some pid }
        match o.pinVerify with
        | none => ⟨clearSessionAndConnection st2 false, false, true⟩
        | some vr =>
          let st3 := { st2 with
            rawCookies := vr.rawCookies,
            trSessionToken := vr.trSessionToken,
            trRefreshToken := vr.trRefreshToken }
          match vr.trSessionToken with
          | none => ⟨clearSessionAndConnection st3 false, false, true⟩
          | some _ =>
            let st4 := saveSessionToFile st3 o.saveOk
            if o.fullWsOk then ⟨(onOpen st4 (fun _ => true)).1, true, true⟩
            else ⟨clearSessionAndConnection st4 false, false, true⟩

/-- One call against the subscription registry.  Besides the three public
calls, `setTokenA` models the only other writer of `trSessionToken` during a
registry call sequence (`_verifyDevicePin` and `loadAndValidateSavedSession`
set or clear the token without touching the registry), so sequences can mix
token-present and token-absent phases. -/
inductive RegAction where
  | subscribeA (message : Msg)
  | subscribeOnceA (message : Msg)
  | unsubA (id : Int)
  | setTokenA (tok : Option String)
deriving Repr

/-- Apply one registry call; subscriptions return their id. -/
def applyAction (st : ApiState) (a : RegAction) : ApiState × Option Int :=
  match a with
  | .subscribeA m => let r := subscribe st m; (r.1, some r.2)
  | .subscribeOnceA m => let r := subscribeOnce st m; (r.1, some r.2)
  | .unsubA i => (unsubscribe st i, none)
  | .setTokenA t => ({ st with trSessionToken := t }, none)

/-- Run a sequence of registry calls, collecting every id the subscribe
calls return (including any `-1` sentinels). -/
def runActions (st : ApiState) : List RegAction → ApiState × List Int
  | [] => (st, [])
  | a :: rest =>
    let r := applyAction st a
    let r2 := runActions r.1 rest
    (r2.1, (match r.2 with | some i => [i] | none => []) ++ r2.2)

/-- The genuinely issued ids of a run: the returned values with the `-1`
sentinels of token-less calls dropped. -/
def issuedIds (returned : List Int) : List Int :=
  returned.filter (fun i => ((0 : Int) ≤ i : Bool))

/-- The registry invariant: no two entries share an id, and every id is
below the `nextSubscriptionId` counter. -/
def RegInv (st : ApiState) : Prop :=
  (st.subscriptions.map (fun s => s.id)).Nodup ∧
  ∀ s ∈ st.subscriptions, s.id < st.nextSubscriptionId

/-- A sample topic message. -/
def demoMsg : Msg := ⟨"ticker", "DE000BASF111"⟩

/-- A logged-in client with one durable subscription and an open socket. -/
def stLoggedInOpen : ApiState :=
  { initialState PersistedFile.absent with
    wsOpen := true, trSessionToken := some ("tok0"), echoRunning := true,
    subscriptions := [⟨1, "ticker", demoMsg, false⟩], nextSubscriptionId := 2 }

/-- A logged-in client with one one-shot subscription and an open socket. -/
def stOneShot : ApiState :=
  { initialState PersistedFile.absent with
    wsOpen := true, trSessionToken := some ("tokA"), echoRunning := true,
    subscriptions := [⟨1, "availableCash", ⟨"availableCash", ""⟩, true⟩],
    nextSubscriptionId := 2 }

/-- Session artifacts of a fresh, successful device-PIN verification. -/
def vrNew : VerifyResult := ⟨["tr_session=NEWTOK"], some ("NEWTOK"), none⟩

/-- Oracles for a full login whose handshake and session save succeed but
whose WebSocket setup then fails. -/
def oSaveThenWsFail : LoginOracles :=
  ⟨true, ProbeOutcome.timeout, some (some ("pid")), some vrNew, true, false⟩

/-- A client state over a persisted session record holding the given token,
cookies and optional refresh token. -/
def stWithSaved (st : ApiState) (tok : String) (cs : List String)
    (refresh : Option String) : ApiState :=
  { st with sessionFile :=
      PersistedFile.stored (.record (some tok) (some cs) refresh) }

/-! ## Theorems -/

/-- C6: the reconnect delay equals `min(maxDelay, baseDelay * 2^attempt)`
(30 s cap, 1 s base), the attempt counter is incremented on each scheduled
try, so across consecutive failed attempts the delay is non-decreasing and
capped at 30 s; the counter is reset to 0 exactly by a successful open, after
which the next scheduled delay is the base delay again. -/
theorem backoff_formula_monotone_capped_resets :
    ∀ (st : ApiState) (sendOk : Nat → Bool),
    (scheduleReconnect st).2 = min 30000 (1000 * 2 ^ st.reconnectAttempts)
    ∧ (scheduleReconnect st).1.reconnectAttempts = st.reconnectAttempts + 1
    ∧ (scheduleReconnect st).2 ≤ (scheduleReconnect (scheduleReconnect st).1).2
    ∧ (scheduleReconnect st).2 ≤ 30000
    ∧ (onOpen st sendOk).1.reconnectAttempts = 0
    ∧ (scheduleReconnect ((onOpen st sendOk).1)).2 = 1000 := by
  intro st sendOk
  refine ⟨rfl, rfl, ?_, ?_, rfl, ?_⟩
  · show min 30000 (1000 * 2 ^ st.reconnectAttempts)
        ≤ min 30000 (1000 * 2 ^ (st.reconnectAttempts + 1))
    exact min_le_min (Nat.le_refl _)
      (Nat.mul_le_mul_left _ (Nat.pow_le_pow_right (by omega) (Nat.le_succ _)))
  · exact Nat.min_le_left _ _
  · rfl

/-- Dropping while a predicate holds of every element drops everything. -/
theorem dropWhile_all {p : Char → Bool} :
    ∀ l : List Char, l.all p = true → l.dropWhile p = [] := by
  intro l h
  induction l with
  | nil => rfl
  | cons c cs ih =>
    simp only [List.all_cons, Bool.and_eq_true] at h
    simp [List.dropWhile, h.1, ih h.2]

/-- `takeWhile` of a brace-free prefix followed by a brace keeps exactly the
prefix. -/
theorem takeWhile_brace_split (pre suf : List Char)
    (h : pre.all (fun c => c ≠ lbrace) = true) :
    (pre ++ lbrace :: suf).takeWhile (fun c => c ≠ lbrace) = pre := by
  induction pre with
  | nil => simp [List.takeWhile]
  | cons c cs ih =>
    simp only [List.all_cons, Bool.and_eq_true] at h
    simp only [List.cons_append, List.takeWhile, h.1, List.append_eq, ih h.2]

/-- `dropWhile` of a brace-free prefix followed by a brace drops exactly the
prefix. -/
theorem dropWhile_brace_split (pre suf : List Char)
    (h : pre.all (fun c => c ≠ lbrace) = true) :
    (pre ++ lbrace :: suf).dropWhile (fun c => c ≠ lbrace) = lbrace :: suf := by
  induction pre with
  | nil => simp [List.dropWhile]
  | cons c cs ih =>
    simp only [List.all_cons, Bool.and_eq_true] at h
    simp only [List.cons_append, List.dropWhile, h.1, List.append_eq, ih h.2]

/-- C5 counterexample: the claim's general rule reads the id as the longest
LEADING run of digits before the first brace and the body as everything from
that brace to the end of the frame.  On `"a42 {}"` the prefix has no leading
digit run, yet the code's `/\d+/` search extracts `42`; and on a frame with
trailing whitespace the code trims the body while the claimed rule keeps it
verbatim. -/
theorem parser_rule_counterexample :
    ((parseWebSocketPayload ("a42 \x7b\x7d")).subscriptionId = some 42)
    ∧ (specLeadingDigitsId ("a42 \x7b\x7d") = none)
    ∧ ((parseWebSocketPayload ("a42 \x7b\x7d")).subscriptionId
        ≠ specLeadingDigitsId ("a42 \x7b\x7d"))
    ∧ ((parseWebSocketPayload ("5 \x7b\x7d ")).jsonData = some ("\x7b\x7d"))
    ∧ (specBodyToEnd ("5 \x7b\x7d ") = some ("\x7b\x7d "))
    ∧ ((parseWebSocketPayload ("5 \x7b\x7d ")).jsonData
        ≠ specBodyToEnd ("5 \x7b\x7d ")) := by
  decide

/-- C5 amended: the concrete examples hold as claimed — `"42 {...}"` parses
to id 42 and the JSON body, `echo`/`connected` frames route no id, a frame
without a brace parses to id `null` and body `null` — and in general, for a
frame made of a brace-free prefix followed by the first `{`, the id is the
FIRST maximal run of digits in the trimmed prefix (not necessarily leading)
and the body is the text from that `{` to the end of the frame with
surrounding whitespace trimmed. -/
theorem parser_examples_and_first_run_rule :
    (parseWebSocketPayload ("42 \x7b\"type\":\"ticker\",\"price\":1\x7d")
      = ⟨some 42, some ("\x7b\"type\":\"ticker\",\"price\":1\x7d")⟩)
    ∧ (routedSubscriptionId ("echo 1690000000000") = none)
    ∧ (routedSubscriptionId ("connected \x7b\x7d") = none)
    ∧ (parseWebSocketPayload ("subscription failed") = ⟨none, none⟩)
    ∧ (∀ raw : String, raw.data.all (fun c => c ≠ lbrace) = true →
        parseWebSocketPayload raw = ⟨none, none⟩)
    ∧ (∀ pre suf : List Char, pre.all (fun c => c ≠ lbrace) = true →
        parseWebSocketPayload (String.mk (pre ++ lbrace :: suf)) =
          ⟨(firstDigitRun (trimChars pre)).map digitsToNat,
            some (String.mk (trimChars (lbrace :: suf)))⟩) := by
  refine ⟨by decide, by decide, by decide, by decide, ?_, ?_⟩
  · intro raw h
    simp only [parseWebSocketPayload]
    rw [dropWhile_all _ h]
  · intro pre suf h
    have hdata : (String.mk (pre ++ lbrace :: suf)).data
        = pre ++ lbrace :: suf := rfl
    simp only [parseWebSocketPayload, hdata]
    rw [takeWhile_brace_split _ _ h, dropWhile_brace_split _ _ h]

/-- Witness for `parser_examples_and_first_run_rule`: the brace-free case on
a concrete frame and the general rule on the decomposition of
`"a42 {x"`. -/
theorem parser_examples_and_first_run_rule_witness :
    (parseWebSocketPayload ("no brace frame") = ⟨none, none⟩)
    ∧ (parseWebSocketPayload (String.mk (("a42 ").data ++ lbrace :: ("x").data))
        = ⟨(firstDigitRun (trimChars (("a42 ").data))).map digitsToNat,
            some (String.mk (trimChars (lbrace :: ("x").data)))⟩) :=
  ⟨parser_examples_and_first_run_rule.2.2.2.2.1 ("no brace frame") (by decide),
   parser_examples_and_first_run_rule.2.2.2.2.2 (("a42 ").data) (("x").data)
     (by decide)⟩

/-- Appending a fresh id (equal to the counter, above every registered id)
keeps the registry ids duplicate-free. -/
theorem nodup_snoc_ids (l : List Subscription) (n : Nat)
    (h : (l.map (fun s => s.id)).Nodup) (hb : ∀ s ∈ l, s.id < n)
    (e : Subscription) (he : e.id = n) :
    ((l ++ [e]).map (fun s => s.id)).Nodup := by
  rw [List.map_append, List.nodup_append]
  refine ⟨h, List.nodup_singleton _, ?_⟩
  intro x hx hx2
  obtain ⟨s, hs, rfl⟩ := List.mem_map.mp hx
  simp only [List.map_cons, List.map_nil, List.mem_singleton] at hx2
  have := hb s hs
  omega

/-- The `-1` sentinel of a token-less subscribe call is not an issued id. -/
theorem issuedIds_cons_neg (l : List Int) :
    issuedIds ((-1) :: l) = issuedIds l := by
  have hd : (decide ((0 : Int) ≤ -1)) = false := by decide
  simp [issuedIds, List.filter_cons, hd]

/-- A returned registry id (a natural number) is an issued id. -/
theorem issuedIds_cons_nat (n : Nat) (l : List Int) :
    issuedIds ((n : Int) :: l) = (n : Int) :: issuedIds l := by
  simp [issuedIds, List.filter_cons, Int.natCast_nonneg]

/-- Core step argument: a state extended with a fresh entry at the counter
satisfies the invariant, and prefixing the fresh id keeps the issued ids
strictly increasing. -/
theorem run_step_core (rest : List RegAction)
    (ih : ∀ st : ApiState, RegInv st →
      RegInv (runActions st rest).1
      ∧ (∀ i ∈ issuedIds (runActions st rest).2,
          (st.nextSubscriptionId : Int) ≤ i)
      ∧ (issuedIds (runActions st rest).2).Pairwise (· < ·))
    (st st' : ApiState) (h : RegInv st) (e : Subscription)
    (he : e.id = st.nextSubscriptionId)
    (hsubs : st'.subscriptions = st.subscriptions ++ [e])
    (hnext : st'.nextSubscriptionId = st.nextSubscriptionId + 1) :
    RegInv (runActions st' rest).1
    ∧ (∀ i ∈ issuedIds ((st.nextSubscriptionId : Int)
          :: (runActions st' rest).2),
        (st.nextSubscriptionId : Int) ≤ i)
    ∧ (issuedIds ((st.nextSubscriptionId : Int)
          :: (runActions st' rest).2)).Pairwise (· < ·) := by
  have hInv' : RegInv st' := by
    constructor
    · rw [hsubs]
      exact nodup_snoc_ids _ _ h.1 h.2 e he
    · intro s hs
      rw [hsubs] at hs
      rw [hnext]
      rcases List.mem_append.mp hs with hs1 | hs2
      · have := h.2 s hs1
        omega
      · rw [List.mem_singleton] at hs2
        subst hs2
        omega
  obtain ⟨i1, i2, i3⟩ := ih st' hInv'
  rw [issuedIds_cons_nat]
  refine ⟨i1, ?_, ?_⟩
  · intro i hi
    rcases List.mem_cons.mp hi with rfl | hi2
    · exact le_refl _
    · have hle := i2 i hi2
      rw [hnext] at hle
      push_cast at hle ⊢
      omega
  · rw [List.pairwise_cons]
    refine ⟨?_, i3⟩
    intro i hi
    have hle := i2 i hi
    rw [hnext] at hle
    push_cast at hle ⊢
    omega

/-- One `subscribe`/`subscribeOnce` call followed by any remaining call
sequence preserves the invariant and the issued-id ordering. -/
theorem subscribeInternal_run_step (rest : List RegAction)
    (ih : ∀ st : ApiState, RegInv st →
      RegInv (runActions st rest).1
      ∧ (∀ i ∈ issuedIds (runActions st rest).2,
          (st.nextSubscriptionId : Int) ≤ i)
      ∧ (issuedIds (runActions st rest).2).Pairwise (· < ·))
    (st : ApiState) (h : RegInv st) (m : Msg) (b : Bool) :
    RegInv (runActions (subscribeInternal st m b).1 rest).1
    ∧ (∀ i ∈ issuedIds ((subscribeInternal st m b).2
          :: (runActions (subscribeInternal st m b).1 rest).2),
        (st.nextSubscriptionId : Int) ≤ i)
    ∧ (issuedIds ((subscribeInternal st m b).2
          :: (runActions (subscribeInternal st m b).1 rest).2)).Pairwise
        (· < ·) := by
  cases htok : st.trSessionToken with
  | none =>
    have hst : subscribeInternal st m b = (st, -1) := by
      simp [subscribeInternal, htok]
    rw [hst]
    obtain ⟨i1, i2, i3⟩ := ih st h
    rw [show ((st, (-1 : Int)).2 : Int) = -1 from rfl,
        show (st, (-1 : Int)).1 = st from rfl, issuedIds_cons_neg]
    exact ⟨i1, i2, i3⟩
  | some t =>
    cases hws : st.wsOpen with
    | true =>
      have hst : subscribeInternal st m b =
          ({ st with
              nextSubscriptionId := st.nextSubscriptionId + 1,
              subscriptions := st.subscriptions ++
                [⟨st.nextSubscriptionId, m.type, m, b⟩] },
            (st.nextSubscriptionId : Int)) := by
        simp [subscribeInternal, htok, hws]
      rw [hst]
      exact run_step_core rest ih st _ h
        ⟨st.nextSubscriptionId, m.type, m, b⟩ rfl rfl rfl
    | false =>
      have hst : subscribeInternal st m b =
          ({ st with
              nextSubscriptionId := st.nextSubscriptionId + 1,
              subscriptions := st.subscriptions ++
                [⟨st.nextSubscriptionId, m.type, m, b⟩],
              pendingSubs := st.pendingSubs ++ [st.nextSubscriptionId] },
            (st.nextSubscriptionId : Int)) := by
        simp [subscribeInternal, htok, hws]
      rw [hst]
      exact run_step_core rest ih st _ h
        ⟨st.nextSubscriptionId, m.type, m, b⟩ rfl rfl rfl

/-- Invariant preservation and issued-id monotonicity for every registry
call sequence: from any state satisfying `RegInv`, the final state satisfies
`RegInv`, every issued id is at least the starting counter, and the issued
ids are strictly increasing. -/
theorem runActions_spec (acts : List RegAction) :
    ∀ st : ApiState, RegInv st →
      RegInv (runActions st acts).1
      ∧ (∀ i ∈ issuedIds (runActions st acts).2,
          (st.nextSubscriptionId : Int) ≤ i)
      ∧ (issuedIds (runActions st acts).2).Pairwise (· < ·) := by
  induction acts with
  | nil =>
    intro st h
    refine ⟨h, ?_, ?_⟩ <;> simp [runActions, issuedIds]
  | cons a rest ih =>
    intro st h
    cases a with
    | subscribeA m =>
      simp only [runActions, applyAction, subscribe]
      exact subscribeInternal_run_step rest ih st h m false
    | subscribeOnceA m =>
      simp only [runActions, applyAction, subscribeOnce]
      exact subscribeInternal_run_step rest ih st h m true
    | unsubA i =>
      simp only [runActions, applyAction, List.nil_append]
      refine ih (unsubscribe st i) ⟨?_, ?_⟩
      · exact ((List.filter_sublist st.subscriptions).map
          (fun s => s.id)).nodup h.1
      · intro s hs
        exact h.2 s (List.mem_of_mem_filter hs)
    | setTokenA t =>
      simp only [runActions, applyAction, List.nil_append]
      exact ih _ ⟨h.1, h.2⟩

/-- Delivery to an id with no registry entry changes nothing and invokes no
callback. -/
theorem deliver_not_present (cb : Nat → Option String → Bool) (sid : Nat)
    (d : Option String) :
    ∀ subs : List Subscription, sid ∉ subs.map (fun s => s.id) →
      deliverToSubs cb sid d subs = (subs, []) := by
  intro subs
  induction subs with
  | nil => intro _; rfl
  | cons t rest ih =>
    intro h
    simp only [List.map_cons, List.mem_cons] at h
    push_neg at h
    simp only [deliverToSubs, if_neg (fun hc : t.id = sid => h.1 hc.symm)]
    rw [ih h.2]

/-- Delivery never adds entries: the resulting registry is a sublist of the
original. -/
theorem deliver_sublist (cb : Nat → Option String → Bool) (sid : Nat)
    (d : Option String) :
    ∀ subs : List Subscription, (deliverToSubs cb sid d subs).1.Sublist subs := by
  intro subs
  induction subs with
  | nil => exact List.Sublist.refl _
  | cons t rest ih =>
    by_cases ht : t.id = sid
    · simp only [deliverToSubs, if_pos ht]
      cases h1 : t.isOneTime <;> simp
    · simp only [deliverToSubs, if_neg ht]
      exact List.Sublist.cons₂ t ih

/-- When a matching entry exists, exactly one callback invocation happens,
with the parsed payload. -/
theorem deliver_events_eq (cb : Nat → Option String → Bool) (sid : Nat)
    (d : Option String) :
    ∀ subs : List Subscription, sid ∈ subs.map (fun s => s.id) →
      (deliverToSubs cb sid d subs).2 = [⟨sid, d, cb sid d⟩] := by
  intro subs
  induction subs with
  | nil => intro h; simp at h
  | cons t rest ih =>
    intro h
    by_cases ht : t.id = sid
    · simp [deliverToSubs, if_pos ht]
    · simp only [List.map_cons, List.mem_cons] at h
      rcases h with h | h
      · exact absurd h.symm ht
      · simp only [deliverToSubs, if_neg ht]
        exact ih h

/-- Every recorded invocation is addressed to the delivered id. -/
theorem deliver_events_subId (cb : Nat → Option String → Bool) (sid : Nat)
    (d : Option String) :
    ∀ (subs : List Subscription) (e : DeliveryEvent),
      e ∈ (deliverToSubs cb sid d subs).2 → e.subId = sid := by
  intro subs
  induction subs with
  | nil => intro e h; simp [deliverToSubs] at h
  | cons t rest ih =>
    intro e h
    by_cases ht : t.id = sid
    · simp [deliverToSubs, if_pos ht] at h
      rw [h]
    · simp only [deliverToSubs, if_neg ht] at h
      exact ih e h

/-- The registry after delivery does not depend on whether the callback
threw: the handler's `try/catch` confines the exception. -/
theorem deliver_subs_indep (cb cb' : Nat → Option String → Bool) (sid : Nat)
    (d : Option String) :
    ∀ subs : List Subscription,
      (deliverToSubs cb sid d subs).1 = (deliverToSubs cb' sid d subs).1 := by
  intro subs
  induction subs with
  | nil => rfl
  | cons t rest ih =>
    by_cases ht : t.id = sid
    · simp [deliverToSubs, if_pos ht]
    · simp only [deliverToSubs, if_neg ht]
      rw [ih]

/-- Delivering to a one-shot entry's id removes that id from the registry
(with duplicate-free ids, the first match is the entry itself). -/
theorem deliver_oneshot_not_mem (cb : Nat → Option String → Bool)
    (d : Option String) (s : Subscription) :
    ∀ subs : List Subscription, (subs.map (fun t => t.id)).Nodup →
      s ∈ subs → s.isOneTime = true →
      s.id ∉ ((deliverToSubs cb s.id d subs).1.map (fun t => t.id)) := by
  intro subs
  induction subs with
  | nil => intro _ hs; simp at hs
  | cons t rest ih =>
    intro hnd hs h1
    simp only [List.map_cons, List.nodup_cons] at hnd
    by_cases ht : t.id = s.id
    · have hst : s = t := by
        rcases List.mem_cons.mp hs with h | h
        · exact h
        · exact absurd (ht ▸ List.mem_map_of_mem (fun u => u.id) h) hnd.1
      simp only [deliverToSubs, if_pos ht, hst ▸ h1, if_pos rfl]
      rw [← ht]
      exact hnd.1
    · have hsr : s ∈ rest := by
        rcases List.mem_cons.mp hs with h | h
        · exact absurd (congrArg (fun u => u.id) h.symm) ht
        · exact h
      simp only [deliverToSubs, if_neg ht, List.map_cons, List.mem_cons]
      push_neg
      exact ⟨fun hc => ht hc.symm, ih hnd.2 hsr h1⟩

/-- An entry whose id differs from the delivered id survives delivery. -/
theorem deliver_mem_of_ne (cb : Nat → Option String → Bool) (sid : Nat)
    (d : Option String) (s : Subscription) :
    ∀ subs : List Subscription, s ∈ subs → s.id ≠ sid →
      s ∈ (deliverToSubs cb sid d subs).1 := by
  intro subs
  induction subs with
  | nil => intro hs; simp at hs
  | cons t rest ih =>
    intro hs hne
    by_cases ht : t.id = sid
    · have hsr : s ∈ rest := by
        rcases List.mem_cons.mp hs with h | h
        · exact absurd (h ▸ ht) hne
        · exact h
      simp only [deliverToSubs, if_pos ht]
      cases t.isOneTime <;> simp [hsr]
    · simp only [deliverToSubs, if_neg ht]
      rcases List.mem_cons.mp hs with h | h
      · exact h ▸ List.mem_cons_self _ _
      · exact List.mem_cons_of_mem _ (ih h hne)

/-- A durable entry survives every delivery. -/
theorem deliver_durable_mem (cb : Nat → Option String → Bool) (sid : Nat)
    (d : Option String) (s : Subscription) :
    ∀ subs : List Subscription, s ∈ subs → s.isOneTime = false →
      s ∈ (deliverToSubs cb sid d subs).1 := by
  intro subs
  induction subs with
  | nil => intro hs; simp at hs
  | cons t rest ih =>
    intro hs h0
    by_cases ht : t.id = sid
    · simp only [deliverToSubs, if_pos ht]
      rcases List.mem_cons.mp hs with h | h
      · rw [← h, h0]
        simp
      · cases t.isOneTime <;> simp [h]
    · simp only [deliverToSubs, if_neg ht]
      rcases List.mem_cons.mp hs with h | h
      · exact h ▸ List.mem_cons_self _ _
      · exact List.mem_cons_of_mem _ (ih h h0)

/-- When a frame routes to an id, the handler is exactly the registry
delivery step on the parsed payload. -/
theorem handle_of_routed (cb : Nat → Option String → Bool) (st : ApiState)
    (raw : String) (sid : Nat) (h : routedSubscriptionId raw = some sid) :
    handleWebSocketMessage cb st raw =
      ({ st with subscriptions :=
          (deliverToSubs cb sid (parseWebSocketPayload raw).jsonData
            st.subscriptions).1 },
        (deliverToSubs cb sid (parseWebSocketPayload raw).jsonData
          st.subscriptions).2) := by
  simp only [routedSubscriptionId] at h
  simp only [handleWebSocketMessage]
  cases h1 : strStartsWith raw ("echo") with
  | true => simp [h1] at h
  | false =>
    cases h2 : strStartsWith raw ("connected") with
    | true => simp [h1, h2] at h
    | false =>
      simp only [h1, h2, Bool.false_eq_true, if_false] at h ⊢
      rw [h]

/-- Control frames and frames with no routed id change nothing and invoke no
callback. -/
theorem handle_of_not_routed (cb : Nat → Option String → Bool)
    (st : ApiState) (raw : String) (h : routedSubscriptionId raw = none) :
    handleWebSocketMessage cb st raw = (st, []) := by
  simp only [routedSubscriptionId] at h
  simp only [handleWebSocketMessage]
  cases h1 : strStartsWith raw ("echo") with
  | true => simp [h1]
  | false =>
    cases h2 : strStartsWith raw ("connected") with
    | true => simp [h1, h2]
    | false =>
      simp only [h1, h2, Bool.false_eq_true, if_false] at h ⊢
      rw [h]

/-- State component of `handle_of_routed`. -/
theorem handle_of_routed_fst (cb : Nat → Option String → Bool)
    (st : ApiState) (raw : String) (sid : Nat)
    (h : routedSubscriptionId raw = some sid) :
    (handleWebSocketMessage cb st raw).1 =
      { st with subscriptions :=
          (deliverToSubs cb sid (parseWebSocketPayload raw).jsonData
            st.subscriptions).1 } := by
  rw [handle_of_routed cb st raw sid h]

/-- Event component of `handle_of_routed`. -/
theorem handle_of_routed_snd (cb : Nat → Option String → Bool)
    (st : ApiState) (raw : String) (sid : Nat)
    (h : routedSubscriptionId raw = some sid) :
    (handleWebSocketMessage cb st raw).2 =
      (deliverToSubs cb sid (parseWebSocketPayload raw).jsonData
        st.subscriptions).2 := by
  rw [handle_of_routed cb st raw sid h]

/-- `countId` distributes over concatenation of event logs. -/
theorem countId_append (i : Nat) (a b : List DeliveryEvent) :
    countId i (a ++ b) = countId i a + countId i b := by
  simp [countId, List.countP_append]

/-- An id with no registry entry receives no deliveries over any frame
sequence. -/
theorem processFrames_not_present (cb : Nat → Option String → Bool) :
    ∀ (frames : List String) (st : ApiState) (i : Nat),
      i ∉ st.subscriptions.map (fun s => s.id) →
      countId i (processFrames cb st frames).2 = 0 := by
  intro frames
  induction frames with
  | nil => intro st i _; rfl
  | cons f rest ih =>
    intro st i h
    simp only [processFrames]
    cases hr : routedSubscriptionId f with
    | none =>
      rw [handle_of_not_routed cb st f hr]
      simpa [countId_append] using ih st i h
    | some sid =>
      rw [handle_of_routed cb st f sid hr]
      rw [countId_append]
      by_cases hsi : sid = i
      · subst hsi
        rw [deliver_not_present cb sid _ _ h]
        have h2 := ih { st with subscriptions := st.subscriptions } sid h
        have h0 : countId sid ([] : List DeliveryEvent) = 0 := rfl
        rw [h0, Nat.zero_add]
        exact h2
      · have hev : countId i (deliverToSubs cb sid
            (parseWebSocketPayload f).jsonData st.subscriptions).2 = 0 := by
          rw [countId, List.countP_eq_zero]
          intro e he
          have := deliver_events_subId cb sid _ _ e he
          simp [this, hsi]
        have hmem : i ∉ ((deliverToSubs cb sid
            (parseWebSocketPayload f).jsonData st.subscriptions).1.map
              (fun s => s.id)) := by
          intro hc
          exact h (((deliver_sublist cb sid
            (parseWebSocketPayload f).jsonData st.subscriptions).map
              (fun s => s.id)).subset hc)
        rw [hev]
        simpa using ih _ i hmem

/-- A one-shot entry receives at most one delivery over any inbound frame
sequence. -/
theorem processFrames_oneshot (cb : Nat → Option String → Bool) :
    ∀ (frames : List String) (st : ApiState) (s : Subscription),
      (st.subscriptions.map (fun t => t.id)).Nodup →
      s ∈ st.subscriptions → s.isOneTime = true →
      countId s.id (processFrames cb st frames).2 ≤ 1 := by
  intro frames
  induction frames with
  | nil =>
    intro st s _ _ _
    simp [processFrames, countId]
  | cons f rest ih =>
    intro st s hnd hs h1
    simp only [processFrames]
    cases hr : routedSubscriptionId f with
    | none =>
      rw [handle_of_not_routed cb st f hr]
      simpa using ih st s hnd hs h1
    | some sid =>
      rw [handle_of_routed cb st f sid hr, countId_append]
      by_cases hsi : sid = s.id
      · subst hsi
        rw [deliver_events_eq cb s.id (parseWebSocketPayload f).jsonData
          st.subscriptions (List.mem_map_of_mem (fun t => t.id) hs)]
        have hnm := deliver_oneshot_not_mem cb
          (parseWebSocketPayload f).jsonData s st.subscriptions hnd hs h1
        have hz := processFrames_not_present cb rest
          { st with subscriptions := (deliverToSubs cb s.id
              (parseWebSocketPayload f).jsonData st.subscriptions).1 }
          s.id hnm
        have h1c : countId s.id
            ([⟨s.id, (parseWebSocketPayload f).jsonData,
              cb s.id ((parseWebSocketPayload f).jsonData)⟩]
              : List DeliveryEvent) = 1 := by
          simp [countId]
        rw [h1c, hz]
      · have hev : countId s.id (deliverToSubs cb sid
            (parseWebSocketPayload f).jsonData st.subscriptions).2 = 0 := by
          rw [countId, List.countP_eq_zero]
          intro e he
          have hse := deliver_events_subId cb sid _ _ e he
          simp [hse]
          exact fun hc => hsi hc
        have hnd2 : (((deliverToSubs cb sid
            (parseWebSocketPayload f).jsonData st.subscriptions).1).map
              (fun t => t.id)).Nodup :=
          ((deliver_sublist cb sid (parseWebSocketPayload f).jsonData
            st.subscriptions).map (fun t => t.id)).nodup hnd
        have hs2 : s ∈ (deliverToSubs cb sid
            (parseWebSocketPayload f).jsonData st.subscriptions).1 :=
          deliver_mem_of_ne cb sid (parseWebSocketPayload f).jsonData s
            st.subscriptions hs (fun hc => hsi hc.symm)
        have hrest := ih { st with subscriptions := (deliverToSubs cb sid
            (parseWebSocketPayload f).jsonData st.subscriptions).1 }
          s hnd2 hs2 h1
        rw [hev, Nat.zero_add]
        exact hrest

/-- A durable entry survives any inbound frame sequence and receives exactly
one delivery per frame routed to its id. -/
theorem processFrames_durable (cb : Nat → Option String → Bool) :
    ∀ (frames : List String) (st : ApiState) (s : Subscription),
      (st.subscriptions.map (fun t => t.id)).Nodup →
      s ∈ st.subscriptions → s.isOneTime = false →
      s ∈ (processFrames cb st frames).1.subscriptions
      ∧ countId s.id (processFrames cb st frames).2
          = frames.countP (fun f => routedSubscriptionId f == some s.id) := by
  intro frames
  induction frames with
  | nil =>
    intro st s _ hs _
    exact ⟨hs, rfl⟩
  | cons f rest ih =>
    intro st s hnd hs h0
    simp only [processFrames, List.countP_cons]
    cases hr : routedSubscriptionId f with
    | none =>
      have hp : (routedSubscriptionId f == some s.id) = false := by
        rw [hr]; rfl
      rw [handle_of_not_routed cb st f hr]
      obtain ⟨m1, m2⟩ := ih st s hnd hs h0
      refine ⟨by simpa using m1, ?_⟩
      simp only [hp, if_false]
      simpa using m2
    | some sid =>
      rw [handle_of_routed_fst cb st f sid hr,
          handle_of_routed_snd cb st f sid hr, countId_append]
      have hnd2 : (((deliverToSubs cb sid
          (parseWebSocketPayload f).jsonData st.subscriptions).1).map
            (fun t => t.id)).Nodup :=
        ((deliver_sublist cb sid (parseWebSocketPayload f).jsonData
          st.subscriptions).map (fun t => t.id)).nodup hnd
      by_cases hsi : sid = s.id
      · subst hsi
        rw [deliver_events_eq cb s.id (parseWebSocketPayload f).jsonData
          st.subscriptions (List.mem_map_of_mem (fun t => t.id) hs)]
        have hs2 : s ∈ (deliverToSubs cb s.id
            (parseWebSocketPayload f).jsonData st.subscriptions).1 :=
          deliver_durable_mem cb s.id (parseWebSocketPayload f).jsonData s
            st.subscriptions hs h0
        obtain ⟨m1, m2⟩ := ih { st with subscriptions := (deliverToSubs cb s.id
            (parseWebSocketPayload f).jsonData st.subscriptions).1 }
          s hnd2 hs2 h0
        refine ⟨m1, ?_⟩
        have h1c : countId s.id
            ([⟨s.id, (parseWebSocketPayload f).jsonData,
              cb s.id ((parseWebSocketPayload f).jsonData)⟩]
              : List DeliveryEvent) = 1 := by
          simp [countId]
        have hif : (if (some s.id == some s.id) = true then 1 else 0) = 1 := by
          simp
        rw [h1c, hif, m2]
        omega
      · have hif : (if (some sid == some s.id) = true then 1 else 0) = 0 := by
          simp [hsi]
        have hev : countId s.id (deliverToSubs cb sid
            (parseWebSocketPayload f).jsonData st.subscriptions).2 = 0 := by
          rw [countId, List.countP_eq_zero]
          intro e he
          have hse := deliver_events_subId cb sid _ _ e he
          simp [hse]
          exact fun hc => hsi hc
        have hs2 : s ∈ (deliverToSubs cb sid
            (parseWebSocketPayload f).jsonData st.subscriptions).1 :=
          deliver_mem_of_ne cb sid (parseWebSocketPayload f).jsonData s
            st.subscriptions hs (fun hc => hsi hc.symm)
        obtain ⟨m1, m2⟩ := ih { st with subscriptions := (deliverToSubs cb sid
            (parseWebSocketPayload f).jsonData st.subscriptions).1 }
          s hnd2 hs2 h0
        refine ⟨m1, ?_⟩
        rw [hev, Nat.zero_add, hif, m2, Nat.add_zero]

/-- C1: over every sequence of `subscribe`/`subscribeOnce`/`unsubscribe`
calls from a fresh client (with any — possibly absent — session token, and
with token changes in between), the subscriptions registry never holds two
entries with the same id, the issued ids are strictly increasing (so each id
exceeds all previously issued ones), and a call made while no session token
is present returns the sentinel `-1` without throwing and leaves the state
unchanged. -/
theorem registry_ids_unique_and_monotone :
    ∀ (file : PersistedFile) (tok : Option String) (acts : List RegAction),
    (((runActions { initialState file with trSessionToken := tok }
        acts).1.subscriptions.map (fun s => s.id)).Nodup)
    ∧ ((issuedIds (runActions { initialState file with trSessionToken := tok }
        acts).2).Pairwise (· < ·))
    ∧ (∀ (st : ApiState) (m : Msg) (b : Bool),
        subscribeInternal { st with trSessionToken := none } m b
          = ({ st with trSessionToken := none }, -1)) := by
  intro file tok acts
  have hInv : RegInv { initialState file with trSessionToken := tok } := by
    constructor
    · simp [initialState]
    · intro s hs
      simp [initialState] at hs
  have h := runActions_spec acts _ hInv
  exact ⟨h.1.1, h.2.2, fun st m b => rfl⟩

/-- C4: with duplicate-free registry ids, a one-shot subscription's callback
is invoked at most once across any sequence of inbound frames; on the frame
routed to its id the callback is invoked with the payload (so it observes
the delivery) and the registry entry is removed afterwards; a durable
subscription stays registered and its callback is invoked exactly once per
inbound data frame routed to its id; and after an explicit unsubscribe it is
never invoked again. -/
theorem oneshot_once_durable_per_frame (cb : Nat → Option String → Bool)
    (st : ApiState) (s : Subscription) (frames : List String)
    (hnd : (st.subscriptions.map (fun t => t.id)).Nodup)
    (hs : s ∈ st.subscriptions) :
    (s.isOneTime = true → countId s.id (processFrames cb st frames).2 ≤ 1)
    ∧ (s.isOneTime = false →
        s ∈ (processFrames cb st frames).1.subscriptions
        ∧ countId s.id (processFrames cb st frames).2
            = frames.countP (fun f => routedSubscriptionId f == some s.id))
    ∧ (∀ raw : String, routedSubscriptionId raw = some s.id →
        s.isOneTime = true →
        (handleWebSocketMessage cb st raw).2
          = [⟨s.id, (parseWebSocketPayload raw).jsonData,
              cb s.id ((parseWebSocketPayload raw).jsonData)⟩]
        ∧ s.id ∉ ((handleWebSocketMessage cb st raw).1.subscriptions.map
            (fun t => t.id)))
    ∧ (∀ frames2 : List String,
        countId s.id (processFrames cb (unsubscribe st ((s.id : Int)))
          frames2).2 = 0) := by
  refine ⟨fun h1 => processFrames_oneshot cb frames st s hnd hs h1,
          fun h0 => processFrames_durable cb frames st s hnd hs h0,
          ?_, ?_⟩
  · intro raw hroute h1
    constructor
    · rw [handle_of_routed_snd cb st raw s.id hroute]
      exact deliver_events_eq cb s.id _ _
        (List.mem_map_of_mem (fun t => t.id) hs)
    · rw [handle_of_routed_fst cb st raw s.id hroute]
      exact deliver_oneshot_not_mem cb _ s st.subscriptions hnd hs h1
  · intro frames2
    apply processFrames_not_present
    intro hc
    obtain ⟨t, ht, hid⟩ := List.mem_map.mp hc
    have hpred := (List.mem_filter.mp ht).2
    simp [hid] at hpred

/-- C10: even when a one-shot subscription's callback throws on its matching
frame, the handler's `try/catch` confines the exception — the recorded
delivery notes the throw, the registry evolves exactly as in a non-throwing
run, the entry is still removed — and the callback can never be invoked a
second time on any later frame. -/
theorem throwing_oneshot_caught_removed (cb : Nat → Option String → Bool)
    (st : ApiState) (s : Subscription) (raw : String) (frames : List String)
    (hnd : (st.subscriptions.map (fun t => t.id)).Nodup)
    (hs : s ∈ st.subscriptions) (h1 : s.isOneTime = true)
    (hroute : routedSubscriptionId raw = some s.id)
    (hthrow : cb s.id ((parseWebSocketPayload raw).jsonData) = true) :
    ((handleWebSocketMessage cb st raw).2
      = [⟨s.id, (parseWebSocketPayload raw).jsonData, true⟩])
    ∧ ((handleWebSocketMessage cb st raw).1.subscriptions
        = (handleWebSocketMessage (fun _ _ => false) st raw).1.subscriptions)
    ∧ (s.id ∉ ((handleWebSocketMessage cb st raw).1.subscriptions.map
        (fun t => t.id)))
    ∧ (countId s.id (processFrames cb
        (handleWebSocketMessage cb st raw).1 frames).2 = 0) := by
  refine ⟨?_, ?_, ?_, ?_⟩
  · rw [handle_of_routed_snd cb st raw s.id hroute,
        deliver_events_eq cb s.id _ _
          (List.mem_map_of_mem (fun t => t.id) hs),
        hthrow]
  · rw [handle_of_routed_fst cb st raw s.id hroute,
        handle_of_routed_fst (fun _ _ => false) st raw s.id hroute]
    rw [deliver_subs_indep cb (fun _ _ => false) s.id
      (parseWebSocketPayload raw).jsonData st.subscriptions]
  · rw [handle_of_routed_fst cb st raw s.id hroute]
    exact deliver_oneshot_not_mem cb _ s st.subscriptions hnd hs h1
  · apply processFrames_not_present
    rw [handle_of_routed_fst cb st raw s.id hroute]
    exact deliver_oneshot_not_mem cb _ s st.subscriptions hnd hs h1

/-- Witness for `oneshot_once_durable_per_frame`: a concrete one-shot entry
delivered at most once over two matching frames, and a concrete durable
entry delivered once per matching frame. -/
theorem oneshot_once_durable_per_frame_witness :
    (countId 1 (processFrames (fun _ _ => false) stOneShot
        [("1 \x7b\x7d"), ("1 \x7b\x7d")]).2 ≤ 1)
    ∧ (countId 1 (processFrames (fun _ _ => false) stLoggedInOpen
        [("1 \x7b\x7d"), ("1 \x7b\x7d")]).2
      = ([("1 \x7b\x7d"), ("1 \x7b\x7d")]).countP
          (fun f => routedSubscriptionId f == some 1)) :=
  ⟨(oneshot_once_durable_per_frame (fun _ _ => false) stOneShot
      ⟨1, "availableCash", ⟨"availableCash", ""⟩, true⟩
      [("1 \x7b\x7d"), ("1 \x7b\x7d")] (by decide) (by decide)).1 rfl,
    ((oneshot_once_durable_per_frame (fun _ _ => false) stLoggedInOpen
      ⟨1, "ticker", demoMsg, false⟩
      [("1 \x7b\x7d"), ("1 \x7b\x7d")] (by decide) (by decide)).2.1 rfl).2⟩

/-- Witness for `throwing_oneshot_caught_removed`: a concrete one-shot entry
whose callback throws is still recorded as delivered and removed. -/
theorem throwing_oneshot_caught_removed_witness :
    ((handleWebSocketMessage (fun _ _ => true) stOneShot ("1 \x7b\x7d")).2
      = [⟨1, some ("\x7b\x7d"), true⟩])
    ∧ (1 ∉ (((handleWebSocketMessage (fun _ _ => true) stOneShot
        ("1 \x7b\x7d")).1.subscriptions).map (fun t => t.id))) :=
  let h := throwing_oneshot_caught_removed (fun _ _ => true) stOneShot
    ⟨1, "availableCash", ⟨"availableCash", ""⟩, true⟩ ("1 \x7b\x7d") []
    (by decide) (by decide) rfl (by decide) rfl
  ⟨h.1, h.2.2.1⟩

/-- C3: the claim is refuted by the code.  After an unexpected close the
reconnect `setTimeout` is pending; `logout()` (which runs
`_clearLocalRuntimeState` and `_deleteSavedSessionFile`) stores no handle to
it and cancels only the echo interval, so the pending reconnect survives the
deliberate teardown, and when the timer fires `_setupWebSocket()` reopens
the socket — resurrecting the logically closed client. -/
theorem teardown_leaves_pending_reconnect :
    ((logout (onUnexpectedClose stLoggedInOpen).1).pendingReconnects = 1)
    ∧ ((logout (onUnexpectedClose stLoggedInOpen).1).wsOpen = false)
    ∧ ((logout (onUnexpectedClose stLoggedInOpen).1).trSessionToken = none)
    ∧ ((reconnectTimerFires (logout (onUnexpectedClose stLoggedInOpen).1)
          true).wsOpen = true) := by
  decide

/-- C2: after an unexpected close followed by a successful reconnect, the
`onOpen` handler's `_resubscribeAll` attempts exactly one `sub` frame per
still-registered subscription, in registry order, each frame carrying the
session token current at reconnect time (the registry entries store no
token, so no token captured at subscribe time can appear); and the list of
attempted frames is the same whatever the per-entry send-failure oracle
says, since each send runs in its own `try/catch`. -/
theorem resubscribe_exactly_once_in_order_with_current_token :
    ∀ (st : ApiState) (tok : String) (sendOk : Nat → Bool),
    ((onOpen { (onUnexpectedClose st).1 with trSessionToken := some tok }
        sendOk).2.map (fun p => p.1.id)
      = st.subscriptions.map (fun s => s.id))
    ∧ ((onOpen { (onUnexpectedClose st).1 with trSessionToken := some tok }
        sendOk).2.map (fun p => p.1.token)
      = st.subscriptions.map (fun _ => some tok))
    ∧ ((onOpen { (onUnexpectedClose st).1 with trSessionToken := some tok }
        sendOk).2.map (fun p => p.1.payload)
      = st.subscriptions.map (fun s => s.payload))
    ∧ ((onOpen { (onUnexpectedClose st).1 with trSessionToken := some tok }
        sendOk).2.map Prod.fst
      = (onOpen { (onUnexpectedClose st).1 with trSessionToken := some tok }
          (fun _ => true)).2.map Prod.fst) := by
  intro st tok sendOk
  refine ⟨?_, ?_, ?_, ?_⟩ <;>
    simp [onOpen, onUnexpectedClose, scheduleReconnect, resubscribeAll,
      Function.comp_def]

/-- C9: a persisted session file whose record is missing the `rawCookies`
array — or missing a non-empty token, or not well-formed JSON, or empty — is
treated identically to having no saved session: the load returns absent and
the corrupt file is removed; absence of the file itself is not an error and
removes nothing. -/
theorem corrupt_session_file_treated_as_absent :
    ∀ (tok : String) (cs : List String) (refresh : Option String),
    (loadSessionFromFile (.stored (.record (some tok) none refresh))
      = ⟨none, .absent, true⟩)
    ∧ (loadSessionFromFile (.stored (.record none (some cs) refresh))
      = ⟨none, .absent, true⟩)
    ∧ (loadSessionFromFile (.stored (.record (some ("")) (some cs) refresh))
      = ⟨none, .absent, true⟩)
    ∧ (loadSessionFromFile (.stored .malformedJson) = ⟨none, .absent, true⟩)
    ∧ (loadSessionFromFile (.stored .empty) = ⟨none, .absent, true⟩)
    ∧ (loadSessionFromFile .absent = ⟨none, .absent, false⟩)
    ∧ (∀ t : String, t.isEmpty = false →
        loadSessionFromFile (.stored (.record (some t) (some cs) refresh))
          = ⟨some ⟨t, refresh, cs⟩,
              .stored (.record (some t) (some cs) refresh), false⟩) := by
  intro tok cs refresh
  refine ⟨rfl, rfl, rfl, rfl, rfl, rfl, ?_⟩
  intro t ht
  simp [loadSessionFromFile, ht]

/-- C7: when a saved session restores but the validation probe reports it
invalid (authentication-error marker in the payload, a `null` payload, or
the probe timing out), `login()` falls through to the full PIN handshake,
and the restore step has cleared the in-memory session, deleted the
persisted record, and reset the local state — the old token is not retained. -/
theorem invalid_probe_clears_session_and_falls_through :
    ∀ (st : ApiState) (tok : String) (cs : List String)
      (refresh : Option String) (probe : ProbeOutcome)
      (il : Option (Option String)) (pv : Option VerifyResult) (sv fw : Bool),
    tok.isEmpty = false →
    sessionValidationResult probe = false →
    ((login (stWithSaved st tok cs refresh)
        ⟨true, probe, il, pv, sv, fw⟩).usedFullFlow = true)
    ∧ ((loadAndValidateSavedSession (stWithSaved st tok cs refresh) true
        probe).2 = false)
    ∧ ((loadAndValidateSavedSession (stWithSaved st tok cs refresh) true
        probe).1.trSessionToken = none)
    ∧ ((loadAndValidateSavedSession (stWithSaved st tok cs refresh) true
        probe).1.trRefreshToken = none)
    ∧ ((loadAndValidateSavedSession (stWithSaved st tok cs refresh) true
        probe).1.rawCookies = [])
    ∧ ((loadAndValidateSavedSession (stWithSaved st tok cs refresh) true
        probe).1.processId = none)
    ∧ ((loadAndValidateSavedSession (stWithSaved st tok cs refresh) true
        probe).1.subscriptions = [])
    ∧ ((loadAndValidateSavedSession (stWithSaved st tok cs refresh) true
        probe).1.pendingSubs = [])
    ∧ ((loadAndValidateSavedSession (stWithSaved st tok cs refresh) true
        probe).1.wsOpen = false)
    ∧ ((loadAndValidateSavedSession (stWithSaved st tok cs refresh) true
        probe).1.sessionFile = PersistedFile.absent) := by
  intro st tok cs refresh probe il pv sv fw htok hbad
  have hload : loadSessionFromFile
      (PersistedFile.stored (.record (some tok) (some cs) refresh))
      = ⟨some ⟨tok, refresh, cs⟩,
          .stored (.record (some tok) (some cs) refresh), false⟩ := by
    simp [loadSessionFromFile, htok]
  have h2 : (loadAndValidateSavedSession (stWithSaved st tok cs refresh) true
      probe).2 = false := by
    simp [loadAndValidateSavedSession, stWithSaved, hload, htok, hbad,
      performSessionValidationSubscription, clearSessionAndConnection,
      clearLocalRuntimeState]
  refine ⟨?_, h2, ?_⟩
  · rcases il with _ | pid
    · simp [login, h2]
    · rcases pid with _ | p
      · simp [login, h2]
      · rcases pv with _ | vr
        · by_cases hp : p.isEmpty <;> simp [login, h2, hp]
        · rcases vr with ⟨vcs, vtok, vref⟩
          rcases vtok with _ | tk
          · by_cases hp : p.isEmpty <;> simp [login, h2, hp]
          · by_cases hp : p.isEmpty <;> cases fw <;> simp [login, h2, hp]
  · simp [loadAndValidateSavedSession, stWithSaved, hload, htok, hbad,
      performSessionValidationSubscription, clearSessionAndConnection,
      clearLocalRuntimeState]

/-- Witness for `invalid_probe_clears_session_and_falls_through`: a concrete
saved session whose probe times out — `login` takes the full flow and the
restore step reports failure. -/
theorem invalid_probe_witness :
    ((login (stWithSaved (initialState PersistedFile.absent) ("T") (["c"])
        none)
        ⟨true, ProbeOutcome.timeout, none, none, true, true⟩).usedFullFlow
      = true)
    ∧ ((loadAndValidateSavedSession (stWithSaved
        (initialState PersistedFile.absent) ("T") (["c"]) none) true
        ProbeOutcome.timeout).1.trSessionToken = none) :=
  let h := invalid_probe_clears_session_and_falls_through
    (initialState PersistedFile.absent) ("T") (["c"]) none
    ProbeOutcome.timeout none none true true (by decide) rfl
  ⟨h.1, h.2.2.1⟩

/-- Witness for `corrupt_session_file_treated_as_absent`: a concrete
well-formed record loads successfully without deleting the file. -/
theorem corrupt_session_file_witness :
    loadSessionFromFile
      (.stored (.record (some ("tk")) (some ["c"]) none))
      = ⟨some ⟨"tk", none, ["c"]⟩,
          .stored (.record (some ("tk")) (some ["c"]) none), false⟩ :=
  (corrupt_session_file_treated_as_absent ("x") (["c"])
    none).2.2.2.2.2.2 ("tk") (by decide)

/-- C8 counterexample: `logout()` then `login()` where the full handshake
and the session save succeed but the subsequent WebSocket setup fails:
`login` returns `false`, yet the freshly saved session record is left on
disk, because the failure path runs `_clearSessionAndConnection(false)`,
which deliberately does not delete the persisted file. -/
theorem logout_login_leaves_saved_record :
    ((login (logout stLoggedInOpen) oSaveThenWsFail).success = false)
    ∧ ((login (logout stLoggedInOpen) oSaveThenWsFail).usedFullFlow = true)
    ∧ ((login (logout stLoggedInOpen) oSaveThenWsFail).state.sessionFile
        = .stored (.record (some ("NEWTOK")) (some ["tr_session=NEWTOK"])
            none))
    ∧ ((login (logout stLoggedInOpen) oSaveThenWsFail).state.sessionFile
        ≠ .absent) := by
  decide

/-- C8 amended: `logout()` followed by `login()` always performs the full
handshake (no residual session is reused, since logout deleted the record
and cleared the token); a login failure clears all partial local in-memory
state and returns `false`; and no persisted record is left if the login
fails before the new session is saved (initiation failure, missing or empty
`processId`, device-PIN verification failure, missing `tr_session` cookie)
or if the save itself fails — but a failure after a successful save (the
counterexample's WebSocket-setup failure) leaves the newly saved record. -/
theorem logout_then_login_full_flow_persistence :
    ∀ (st : ApiState) (o : LoginOracles),
    ((login (logout st) o).usedFullFlow = true)
    ∧ ((login (logout st) o).success = false →
        (login (logout st) o).state.trSessionToken = none
        ∧ (login (logout st) o).state.trRefreshToken = none
        ∧ (login (logout st) o).state.rawCookies = []
        ∧ (login (logout st) o).state.processId = none
        ∧ (login (logout st) o).state.subscriptions = []
        ∧ (login (logout st) o).state.pendingSubs = [])
    ∧ (o.initialLogin = none →
        (login (logout st) o).state.sessionFile = PersistedFile.absent
        ∧ (login (logout st) o).success = false)
    ∧ (o.initialLogin = some none →
        (login (logout st) o).state.sessionFile = PersistedFile.absent
        ∧ (login (logout st) o).success = false)
    ∧ (∀ pid : String, o.initialLogin = some (some pid) →
        pid.isEmpty = true →
        (login (logout st) o).state.sessionFile = PersistedFile.absent
        ∧ (login (logout st) o).success = false)
    ∧ (o.pinVerify = none →
        (login (logout st) o).state.sessionFile = PersistedFile.absent
        ∧ (login (logout st) o).success = false)
    ∧ (∀ vr : VerifyResult, o.pinVerify = some vr →
        vr.trSessionToken = none →
        (login (logout st) o).state.sessionFile = PersistedFile.absent
        ∧ (login (logout st) o).success = false)
    ∧ (o.saveOk = false →
        (login (logout st) o).state.sessionFile = PersistedFile.absent) := by
  intro st o
  obtain ⟨rws, probe, il, pv, sv, fw⟩ := o
  have hrestore : loadAndValidateSavedSession (logout st) rws probe
      = ({ logout st with sessionFile := PersistedFile.absent }, false) := by
    simp [loadAndValidateSavedSession, loadSessionFromFile, logout,
      clearSessionAndConnection, clearLocalRuntimeState]
  rcases il with _ | il2
  · simp [login, hrestore, clearSessionAndConnection, clearLocalRuntimeState]
  · rcases il2 with _ | p
    · simp [login, hrestore, clearSessionAndConnection,
        clearLocalRuntimeState]
    · by_cases hp : p.isEmpty
      · simp [login, hrestore, clearSessionAndConnection,
          clearLocalRuntimeState, hp]
      · rcases pv with _ | ⟨vcs, vtok, vref⟩
        · simp [login, hrestore, clearSessionAndConnection,
            clearLocalRuntimeState, hp]
        · rcases vtok with _ | tk
          · simp [login, hrestore, clearSessionAndConnection,
              clearLocalRuntimeState, hp]
          · cases sv <;> cases fw <;>
              simp [login, hrestore, clearSessionAndConnection,
                clearLocalRuntimeState, hp, saveSessionToFile, onOpen]

/-- Witness for `logout_then_login_full_flow_persistence`: a concrete
logout-then-login whose initiation fails — the full flow is taken, no record
is persisted, and `login` returns `false`. -/
theorem logout_then_login_witness :
    ((login (logout (initialState PersistedFile.absent))
        ⟨true, ProbeOutcome.timeout, none, none, true, false⟩).usedFullFlow
      = true)
    ∧ ((login (logout (initialState PersistedFile.absent))
        ⟨true, ProbeOutcome.timeout, none, none, true,
          false⟩).state.sessionFile = PersistedFile.absent)
    ∧ ((login (logout (initialState PersistedFile.absent))
        ⟨true, ProbeOutcome.timeout, none, none, true, false⟩).success
      = false) :=
  let h := logout_then_login_full_flow_persistence
    (initialState PersistedFile.absent)
    ⟨true, ProbeOutcome.timeout, none, none, true, false⟩
  ⟨h.1, (h.2.2.1 rfl).1, (h.2.2.1 rfl).2⟩

end TRApi
